import Mathlib

/-!
Shallow embedding of `src/urh/signalprocessing/Spectrogram.py`.

The embedding follows the source line by line:

* complex samples become `CQ` (complex numbers with rational components:
  every concrete value used in the claims is exactly representable);
* Python `int()` / numpy `astype(np.int)` become `truncQ` (truncation
  toward zero);
* Python `%` on integers becomes `Int.emod` (same sign convention for a
  positive modulus) and Python `//` becomes `Int.fdiv` (floor division);
* numpy non-finite values (`nan`/`inf`, which arise from division by zero)
  are modelled as `none` in an `Option`-valued cell; arithmetic on finite
  values stays in `ℚ`;
* code that can raise returns `Except PyError`.

`np.fft.fft` is kept as an explicit per-row parameter `dftRow` of the
pipeline (it is an external library routine applied independently to each
frame); `dft4` instantiates it exactly for length-4 frames, where the
primitive fourth root of unity is `-i` and the transform is exact over
rational complex numbers.
-/

/-- Complex numbers with rational components.  Models the exactly
representable numpy complex values appearing in samples and frames. -/
structure CQ where
  re : ℚ
  im : ℚ
deriving DecidableEq, Repr

instance : Zero CQ := ⟨⟨0, 0⟩⟩

instance : One CQ := ⟨⟨1, 0⟩⟩

instance : Add CQ := ⟨fun a b => ⟨a.re + b.re, a.im + b.im⟩⟩

/-- Complex multiplication on `CQ`. -/
instance : Mul CQ := ⟨fun a b => ⟨a.re * b.re - a.im * b.im, a.re * b.im + a.im * b.re⟩⟩

/-- Powers of a `CQ` value (used for the DFT root table). -/
def cqPow (z : CQ) : ℕ → CQ
  | 0 => 1
  | n + 1 => z * cqPow z n

/-- Sum of a list of `CQ` values. -/
def cqSum (l : List CQ) : CQ := l.foldr (· + ·) 0

/-- The discrete Fourier transform with an explicitly given primitive root:
entry `k` of the result is `Σ_j x_j · ω^(j·k)`.  `np.fft.fft` computes this
with `ω = exp(-2πi/n)`. -/
def dftWithRoot (ω : CQ) (x : List CQ) : List CQ :=
  (List.range x.length).map
    (fun k => cqSum ((List.range x.length).map (fun j => x.getD j 0 * cqPow ω (j * k))))

/-- `np.fft.fft` on length-4 frames: the primitive fourth root of unity
`exp(-2πi/4)` is exactly `-i`, so the transform is exact over `CQ`. -/
def dft4 : List CQ → List CQ := dftWithRoot ⟨0, -1⟩

/-- Python `int()` applied to a float, and numpy `astype(np.int)`:
truncation toward zero. -/
def truncQ (q : ℚ) : ℤ := if 0 ≤ q then ⌊q⌋ else ⌈q⌉

/-- Line 84: `hop_size = self.window_size - int(self.overlap_factor * self.window_size)`. -/
def hopSize (w : ℕ) (f : ℚ) : ℤ := (w : ℤ) - truncQ (f * w)

/-- Line 87: the number of zeros appended, `(len(self.samples) - self.window_size) % hop_size`
(Python `%` with a positive modulus, i.e. `Int.emod`). -/
def padCount (n w : ℕ) (hop : ℤ) : ℤ := ((n : ℤ) - w).emod hop

/-- Length of `padded_samples` on line 87: the original length plus the pad. -/
def paddedLen (n w : ℕ) (hop : ℤ) : ℤ := n + padCount n w hop

/-- Line 88: `num_frames = ((len(padded_samples) - self.window_size) // hop_size) + 1`
(Python `//` is floor division, `Int.fdiv`). -/
def numFramesZ (n w : ℕ) (hop : ℤ) : ℤ := (paddedLen n w hop - w).fdiv hop + 1

/-- Lines 87 and 89: the zero-padded sample buffer and the windowed frames
`padded_samples[i*hop_size : i*hop_size + window_size] * window` for
`i in range(num_frames)` (a Python `range` of a non-positive number is
empty, which `Int.toNat` reproduces). -/
def stftFrames (samples : List CQ) (w : ℕ) (hop : ℤ) (window : List CQ) :
    List (List CQ) :=
  let padded := samples ++ List.replicate (padCount samples.length w hop).toNat 0
  (List.range (numFramesZ samples.length w hop).toNat).map
    (fun i => List.zipWith (· * ·) ((padded.drop (i * hop.toNat)).take w) window)

/-- The Python exceptions (and one spec-only error kind) that the embedded
code can surface. -/
inductive PyError where
  /-- The `ValueError` raised on line 103 when normalization is requested
  without both bounds.  The spec names this condition `MissingBoundsError`. -/
  | valueErrorMissingBounds
  /-- Python `ZeroDivisionError`, raised by `%` with a zero modulus on line 87. -/
  | zeroDivisionError
  /-- The `ValueError` `np.zeros` raises on a negative size (reachable only
  for overlap factors above 1, outside every claim). -/
  | valueErrorNegativeDimensions
  /-- Modelled from the spec: `InvalidParameterError`, the explicit
  parameter-validation failure the spec prescribes for a degenerate hop.
  No such check or error class exists anywhere in `src/`. -/
  | invalidParameter
  /-- Python `IndexError`, raised by `np.take` on line 111 when a non-empty
  set of indices is taken from an empty colormap: numpy rejects a non-empty
  take from an empty axis before `mode='clip'` is ever consulted. -/
  | indexError
deriving DecidableEq, Repr

/-- Lines 77-92, `Spectrogram.stft`: compute the hop size, zero-pad, slice
into windowed frames and apply `np.fft.fft` row by row (`dftRow`).  A zero
hop raises `ZeroDivisionError` at the `%` on line 87; there is no explicit
parameter check in the source. -/
def stftE (dftRow : List CQ → List CQ) (samples : List CQ) (w : ℕ) (f : ℚ)
    (windowFn : ℕ → List CQ) : Except PyError (List (List CQ)) :=
  let hop := hopSize w f
  if hop = 0 then .error .zeroDivisionError
  else if hop < 0 then .error .valueErrorNegativeDimensions
  else .ok ((stftFrames samples w hop (windowFn w)).map dftRow)

/-- `np.roll l s`: entry `i` of the result is entry `(i - s) mod len` of `l`. -/
def npRoll (l : List α) (s : ℤ) : List α := l.rotate ((-s).emod l.length).toNat

/-- `np.fft.fftshift` with its default `axes=None` on a 2-D array: every
axis is rolled by half its size, i.e. the rows are rolled by
`num_rows / 2` and each row is rolled by `row_length / 2`. -/
def fftshift2d (m : List (List α)) : List (List α) :=
  (npRoll m ((m.length / 2 : ℕ) : ℤ)).map (fun row => npRoll row ((row.length / 2 : ℕ) : ℤ))

/-- Follows the spec's words, for comparison with `fftshift2d`: frequency-shift
each frame individually (circular rotation of each frame by `window_size/2`
along the frequency axis only), leaving the time order of frames unchanged. -/
def fftshiftFreqOnly (m : List (List α)) : List (List α) :=
  m.map (fun row => npRoll row ((row.length / 2 : ℕ) : ℤ))

/-- Line 93 of `Spectrogram.__calculate_spectrogram`:
`spectrogram = np.fft.fftshift(self.stft())`.  The decibel conversion on
line 94 is element-wise and keeps every cell in place, so row/column order
of the final `SpectrogramMatrix` is settled at this stage (see
`fftshift2d_map`). -/
def calcShifted (dftRow : List CQ → List CQ) (samples : List CQ) (w : ℕ) (f : ℚ)
    (windowFn : ℕ → List CQ) : Except PyError (List (List CQ)) :=
  (stftE dftRow samples w f windowFn).map fftshift2d

/-- Division as numpy performs it on finite floats: a zero divisor produces
a non-finite value (`nan`/`inf`, modelled as `none`), never an exception. -/
def npDiv (a b : ℚ) : Option ℚ := if b = 0 then none else some (a / b)

/-- The per-cell value of line 106,
`(len(colormap) - 1) * ((value - data_min) / (data_max - data_min))`
(`len(colormap) - 1` is `-1` for an empty colormap, as in Python). -/
def normValue (numColors : ℕ) (dataMin dataMax v : ℚ) : Option ℚ :=
  (npDiv (v - dataMin) (dataMax - dataMin)).map (fun t => ((numColors : ℚ) - 1) * t)

/-- The index clamping `np.take(..., mode='clip')` applies on line 111:
the index is clamped into `[0, len(colormap) - 1]`. -/
def clipIdx (numColors : ℕ) (i : ℤ) : ℕ := (min (max i 0) ((numColors : ℤ) - 1)).toNat

/-- One cell of the `np.take` lookup on line 111: an integer index is
clamped and resolved to a colormap entry; a cell holding a non-finite
value (`none`, produced by a division by zero and propagated through
`astype`) has no defined result. -/
def bgraCell [Inhabited α] (colormap : List α) (idx : Option ℤ) : Option α :=
  idx.map (fun i => colormap.getD (clipIdx colormap.length i) default)

/-- `np.take(colormap, indices, axis=0, mode='clip')` on line 111: a
non-empty set of indices taken from an empty colormap raises `IndexError`
(numpy checks for a non-empty take from an empty axis before applying
`mode='clip'`); otherwise every index cell is resolved by `bgraCell`. -/
def npTakeClip [Inhabited α] (colormap : List α) (indices : List (List (Option ℤ))) :
    Except PyError (List (List (Option α))) :=
  if colormap.isEmpty && indices.any (fun row => !row.isEmpty) then
    .error .indexError
  else
    .ok (indices.map (List.map (bgraCell colormap)))

/-- `data.T` for a rectangular matrix: entry `(i, j)` of the transpose is
entry `(j, i)` of `data`.  The column count is read off the first row, as
numpy reads it off the shape. -/
def npT (data : List (List ℚ)) : List (List ℚ) :=
  (List.range (data.headD []).length).map (fun i => data.map (fun row => row.getD i 0))

/-- Lines 101-111, `Spectrogram.apply_bgra_lookup`: raise `ValueError` when
normalizing without both bounds; otherwise transpose the data, normalize it
cell-wise (or use the values directly), truncate with `astype(np.int)` and
look every index up in the colormap with `np.take(..., mode='clip')`
(`npTakeClip`, which raises `IndexError` on a non-empty take from an empty
colormap). -/
def apply_bgra_lookup [Inhabited α] (data : List (List ℚ)) (colormap : List α)
    (data_min data_max : Option ℚ) (normalize : Bool) :
    Except PyError (List (List (Option α))) :=
  if normalize = true ∧ (data_min = none ∨ data_max = none) then
    .error .valueErrorMissingBounds
  else
    let normalized : List (List (Option ℚ)) :=
      if normalize then
        (npT data).map (List.map (normValue colormap.length (data_min.getD 0) (data_max.getD 0)))
      else
        (npT data).map (List.map some)
    npTakeClip colormap (normalized.map (List.map (Option.map truncQ)))

/-- Follows the spec's words, for comparison with the lookup the source
computes: the normalized index per cell is
`round_to_int(clamp((colormap.length - 1) * (value - data_min) / (data_max - data_min), 0, colormap.length - 1))`. -/
def specNormIndex (numColors : ℕ) (dataMin dataMax v : ℚ) : ℤ :=
  round (max 0 (min (((numColors : ℚ) - 1) * ((v - dataMin) / (dataMax - dataMin)))
    ((numColors : ℚ) - 1)))

/-- The mutable state of a `Spectrogram` instance (lines 20-27): the five
private parameter fields and the three cached fields `data`, `data_min`,
`data_max` written once by `__init__`.  The types of the samples, of the
matrix entries and of the window function are parameters so that the
field-update behaviour is stated once for all of them. -/
structure Spectrogram (σ ρ ω : Type) where
  samples : σ
  sample_rate : ℚ
  window_size : ℕ
  overlap_factor : ℚ
  window_function : ω
  data : List (List ρ)
  data_min : ρ
  data_max : ρ
deriving Repr

/-- Lines 20-27, `Spectrogram.__init__`: store the five parameters, compute
`data` once from them with `__calculate_spectrogram` (passed here as `calc`,
together with the `np.min`/`np.max` reductions), and cache its extrema. -/
def Spectrogram.init (calcData : σ → ℕ → ℚ → ω → List (List ρ))
    (npMin npMax : List (List ρ) → ρ) (samples : σ) (sample_rate : ℚ)
    (window_size : ℕ) (overlap_factor : ℚ) (window_function : ω) :
    Spectrogram σ ρ ω :=
  let d := calcData samples window_size overlap_factor window_function
  { samples := samples, sample_rate := sample_rate, window_size := window_size,
    overlap_factor := overlap_factor, window_function := window_function,
    data := d, data_min := npMin d, data_max := npMax d }

/-- The `samples` property setter (lines 33-35): writes the private field only. -/
def Spectrogram.setSamples (s : Spectrogram σ ρ ω) (v : σ) : Spectrogram σ ρ ω :=
  { s with samples := v }

/-- The `sample_rate` property setter (lines 41-43). -/
def Spectrogram.setSampleRate (s : Spectrogram σ ρ ω) (v : ℚ) : Spectrogram σ ρ ω :=
  { s with sample_rate := v }

/-- The `window_size` property setter (lines 49-51). -/
def Spectrogram.setWindowSize (s : Spectrogram σ ρ ω) (v : ℕ) : Spectrogram σ ρ ω :=
  { s with window_size := v }

/-- The `overlap_factor` property setter (lines 57-59). -/
def Spectrogram.setOverlapFactor (s : Spectrogram σ ρ ω) (v : ℚ) : Spectrogram σ ρ ω :=
  { s with overlap_factor := v }

/-- The `window_function` property setter (lines 65-67). -/
def Spectrogram.setWindowFunction (s : Spectrogram σ ρ ω) (v : ω) : Spectrogram σ ρ ω :=
  { s with window_function := v }

/-- `np.hanning` evaluated at the only window size the concrete witnesses
use: `np.hanning(4) = [0, 0.75, 0.75, 0]` exactly (`cos(2π/3) = -1/2`). -/
def hann4Fn : ℕ → List CQ := fun _ => [⟨0, 0⟩, ⟨3/4, 0⟩, ⟨3/4, 0⟩, ⟨0, 0⟩]

/-- A 6-sample unit-impulse buffer used by the concrete counterexamples. -/
def s6 : List CQ := [⟨0, 0⟩, ⟨1, 0⟩, ⟨0, 0⟩, ⟨0, 0⟩, ⟨0, 0⟩, ⟨0, 0⟩]

/-- Cell `(i, j)` of a matrix as a list of rows, when both indices are in
range. -/
def cellAt (m : List (List α)) (i j : ℕ) : Option α :=
  m[i]?.bind (fun row => row[j]?)

deriving instance DecidableEq for Except

theorem npRoll_map (g : α → β) (l : List α) (s : ℤ) :
    npRoll (l.map g) s = (npRoll l s).map g := by
  simp [npRoll, ← List.map_rotate]

/-- An element-wise map (such as the decibel conversion on line 94) commutes
with the 2-D fftshift: the shift decides positions and the map decides
values, independently. -/
theorem fftshift2d_map (g : α → β) (m : List (List α)) :
    fftshift2d (m.map (List.map g)) = (fftshift2d m).map (List.map g) := by
  unfold fftshift2d
  rw [List.length_map, npRoll_map, List.map_map, List.map_map]
  congr 1
  funext row
  simp only [Function.comp_apply, List.length_map, npRoll_map]

theorem cellAt_mapmap (f : α → β) (m : List (List α)) (i j : ℕ) :
    cellAt (m.map (List.map f)) i j = (cellAt m i j).map f := by
  simp only [cellAt, List.getElem?_map]
  cases m[i]? with
  | none => rfl
  | some row => simp [List.getElem?_map]

theorem cellAt_npT (data : List (List ℚ)) (i j : ℕ)
    (hi : i < (data.headD []).length) (hj : j < data.length) :
    cellAt (npT data) i j = some ((data.getD j []).getD i 0) := by
  simp only [cellAt, npT, List.getElem?_map, List.getElem?_range hi,
    Option.map_some', Option.some_bind, List.getElem?_eq_getElem hj]
  simp [List.getD_eq_getElem?_getD, List.getElem?_eq_getElem hj]

/-- The normalized lookup, cell by cell: with both bounds present and
distinct, the image is the transpose-shaped matrix whose cell `(i, j)` is
the colormap entry at the clamped truncation of
`(len(colormap) - 1) * ((data[j][i] - data_min) / (data_max - data_min))`. -/
theorem apply_bgra_lookup_cell [Inhabited α] (data : List (List ℚ)) (cm : List α)
    (mn mx : ℚ) (i j : ℕ) (hcm : cm ≠ []) (hne : mx - mn ≠ 0)
    (hi : i < (data.headD []).length) (hj : j < data.length) :
    ∃ img, apply_bgra_lookup data cm (some mn) (some mx) true = .ok img ∧
      img.length = (data.headD []).length ∧
      (∀ row ∈ img, row.length = data.length) ∧
      cellAt img i j = some (some (cm.getD (clipIdx cm.length
        (truncQ (((cm.length : ℚ) - 1) * (((data.getD j []).getD i 0 - mn) / (mx - mn)))))
        default)) := by
  have hcond : ¬(true = true ∧ ((some mn : Option ℚ) = none ∨ (some mx : Option ℚ) = none)) := by
    simp
  unfold apply_bgra_lookup npTakeClip
  rw [if_neg hcond]
  simp only [if_true, Option.getD_some]
  rw [if_neg (by simp [hcm])]
  refine ⟨_, rfl, ?_, ?_, ?_⟩
  · simp [npT]
  · intro row hrow
    simp only [List.mem_map] at hrow
    obtain ⟨r2, hr2, rfl⟩ := hrow
    obtain ⟨r1, hr1, rfl⟩ := hr2
    obtain ⟨r0, hr0, rfl⟩ := hr1
    simp only [npT, List.mem_map] at hr0
    obtain ⟨k, hk, rfl⟩ := hr0
    simp
  · rw [cellAt_mapmap, cellAt_mapmap, cellAt_mapmap, cellAt_npT data i j hi hj]
    simp [normValue, npDiv, hne, bgraCell]

/-- C1: `__calculate_spectrogram` calls `np.fft.fftshift` with its default
`axes=None`, which rolls the time axis by `num_frames/2` in addition to the
frequency axis.  On a 6-sample impulse buffer with `window_size = 4` and
`overlap_factor = 0.5` (two frames), the produced matrix has the impulse
frame second, while the frequency-only shift the spec describes keeps it
first: row 0 of the result is frame 1, not frame 0. -/
theorem c1_fftshift_rolls_time_axis :
    calcShifted dft4 s6 4 (1/2) hann4Fn =
      .ok [[0, 0, 0, 0],
           [⟨-3/4, 0⟩, ⟨0, 3/4⟩, ⟨3/4, 0⟩, ⟨0, -3/4⟩]] ∧
    (stftE dft4 s6 4 (1/2) hann4Fn).map fftshiftFreqOnly =
      .ok [[⟨-3/4, 0⟩, ⟨0, 3/4⟩, ⟨3/4, 0⟩, ⟨0, -3/4⟩],
           [0, 0, 0, 0]] ∧
    calcShifted dft4 s6 4 (1/2) hann4Fn ≠
      (stftE dft4 s6 4 (1/2) hann4Fn).map fftshiftFreqOnly :=
  ⟨by with_unfolding_all decide, by with_unfolding_all decide, by with_unfolding_all decide⟩

/-- C2: the padding computed on line 87 does not align the padded buffer.
With 5 samples, `window_size = 4` and `overlap_factor = 0.25` the hop is 3,
one zero is appended, and `(len(padded) - window_size) % hop = 2 ≠ 0`; only
one frame is produced, so the last original sample is never covered by a
window even though padding was added. -/
theorem c2_padding_misaligned :
    hopSize 4 (1/4) = 3 ∧ padCount 5 4 3 = 1 ∧
      (paddedLen 5 4 3 - 4).emod 3 = 2 ∧ numFramesZ 5 4 3 = 1 :=
  ⟨by with_unfolding_all decide, by with_unfolding_all decide,
   by with_unfolding_all decide, by with_unfolding_all decide⟩

/-- C3 counterexample: at `overlap_factor = 1` the hop is 0 and `stft`
fails with Python's `ZeroDivisionError` from the `%` on line 87, not with
the `InvalidParameterError` the claim names — no parameter check exists. -/
theorem c3_zero_hop_raises_zero_division :
    hopSize 4 1 = 0 ∧ stftE dft4 s6 4 1 hann4Fn = .error .zeroDivisionError ∧
      stftE dft4 s6 4 1 hann4Fn ≠ .error .invalidParameter :=
  ⟨by with_unfolding_all decide, by with_unfolding_all decide, by with_unfolding_all decide⟩

/-- C5: with `data_min = data_max` the normalization on line 106 divides by
zero: the cell value `(1 - 1) / (1 - 1)` is non-finite (`nan`), nothing
guards it, and the resulting image cell is undefined rather than the
defined all-zero-index lookup (`colormap[0] = 10`) the claim requires. -/
theorem c5_degenerate_bounds_divide_by_zero :
    normValue 2 1 1 1 = none ∧
    apply_bgra_lookup [[1]] [(10:ℕ), 20] (some 1) (some 1) true = .ok [[none]] ∧
    (Except.ok [[none]] : Except PyError (List (List (Option ℕ)))) ≠ .ok [[some 10]] :=
  ⟨by with_unfolding_all decide, by with_unfolding_all decide, by with_unfolding_all decide⟩

/-- C4 counterexample: on the cell value `0.9` with bounds `0, 1` and a
3-entry colormap the normalized value is `1.8`; `astype(np.int)` truncates
it to 1 and the code returns entry `20`, while the round-to-nearest index
of the claim is 2, whose entry is `30`. -/
theorem c4_lookup_truncates_not_rounds :
    apply_bgra_lookup [[9/10]] [(10:ℕ), 20, 30] (some 0) (some 1) true = .ok [[some 20]] ∧
    specNormIndex 3 0 1 (9/10) = 2 ∧
    [(10:ℕ), 20, 30].getD (specNormIndex 3 0 1 (9/10)).toNat 0 = 30 ∧ (20:ℕ) ≠ 30 :=
  ⟨by with_unfolding_all decide, by with_unfolding_all decide,
   by with_unfolding_all decide, by with_unfolding_all decide⟩

/-- The `np.take` stage can raise `IndexError` (empty colormap) but never
the missing-bounds `ValueError`: that one comes only from the explicit
check on lines 102-103. -/
theorem npTakeClip_ne_missing_bounds [Inhabited α] (cm : List α)
    (indices : List (List (Option ℤ))) :
    npTakeClip cm indices ≠ .error .valueErrorMissingBounds := by
  unfold npTakeClip
  split <;> simp

/-- C8: `apply_bgra_lookup` raises the missing-bounds `ValueError` (the
spec's `MissingBoundsError`) exactly when normalization is requested and
`data_min` or `data_max` is absent, and in no other bounds configuration;
with `normalize=False` it never requires bounds: the result is independent
of `data_min`/`data_max` and the missing-bounds error is never raised. -/
theorem c8_missing_bounds_error_iff [Inhabited α] (data : List (List ℚ))
    (colormap : List α) (dmin dmax : Option ℚ) :
    (apply_bgra_lookup data colormap dmin dmax true = .error .valueErrorMissingBounds ↔
      dmin = none ∨ dmax = none) ∧
    apply_bgra_lookup data colormap dmin dmax false =
      apply_bgra_lookup data colormap none none false ∧
    apply_bgra_lookup data colormap dmin dmax false ≠ .error .valueErrorMissingBounds := by
  refine ⟨⟨?_, ?_⟩, ?_, ?_⟩
  · intro h
    by_contra hc
    push_neg at hc
    obtain ⟨h1, h2⟩ := hc
    rcases dmin with _ | mn
    · exact h1 rfl
    rcases dmax with _ | mx
    · exact h2 rfl
    unfold apply_bgra_lookup at h
    rw [if_neg (by simp)] at h
    exact npTakeClip_ne_missing_bounds _ _ h
  · intro h
    unfold apply_bgra_lookup
    rw [if_pos ⟨rfl, h⟩]
  · unfold apply_bgra_lookup
    rfl
  · unfold apply_bgra_lookup
    rw [if_neg (by simp)]
    exact npTakeClip_ne_missing_bounds _ _

/-- C9: every parameter setter of `Spectrogram` writes its own private
field only; the cached fields `data`, `data_min` and `data_max` — computed
once by `__init__` from the construction-time parameters — are untouched,
and no setter recomputes the matrix. -/
theorem c9_setters_leave_cached_data_unchanged
    (s : Spectrogram σ ρ ω) (vs : σ) (vr vf : ℚ) (vw : ℕ) (vfn : ω)
    (calcData : σ → ℕ → ℚ → ω → List (List ρ))
    (npMin npMax : List (List ρ) → ρ) (sam : σ) (rate : ℚ) (w : ℕ) (f : ℚ) (wfn : ω) :
    ((s.setSamples vs).data = s.data ∧ (s.setSamples vs).data_min = s.data_min ∧
      (s.setSamples vs).data_max = s.data_max) ∧
    ((s.setSampleRate vr).data = s.data ∧ (s.setSampleRate vr).data_min = s.data_min ∧
      (s.setSampleRate vr).data_max = s.data_max) ∧
    ((s.setWindowSize vw).data = s.data ∧ (s.setWindowSize vw).data_min = s.data_min ∧
      (s.setWindowSize vw).data_max = s.data_max) ∧
    ((s.setOverlapFactor vf).data = s.data ∧ (s.setOverlapFactor vf).data_min = s.data_min ∧
      (s.setOverlapFactor vf).data_max = s.data_max) ∧
    ((s.setWindowFunction vfn).data = s.data ∧ (s.setWindowFunction vfn).data_min = s.data_min ∧
      (s.setWindowFunction vfn).data_max = s.data_max) ∧
    (Spectrogram.init calcData npMin npMax sam rate w f wfn).data = calcData sam w f wfn :=
  ⟨⟨rfl, rfl, rfl⟩, ⟨rfl, rfl, rfl⟩, ⟨rfl, rfl, rfl⟩, ⟨rfl, rfl, rfl⟩, ⟨rfl, rfl, rfl⟩, rfl⟩

theorem truncQ_intCast (z : ℤ) : truncQ (z : ℚ) = z := by
  unfold truncQ
  split <;> simp

theorem clipIdx_zero : clipIdx N 0 = 0 := by
  unfold clipIdx
  omega

theorem clipIdx_last (hN : 1 ≤ N) : clipIdx N ((N : ℤ) - 1) = N - 1 := by
  unfold clipIdx
  omega

theorem clipIdx_lt (hN : 0 < N) (i : ℤ) : clipIdx N i < N := by
  unfold clipIdx
  omega

/-- C4 (amended): with both bounds present and `data_max > data_min`, the
normalized lookup indexes each cell of the transposed matrix by
`clamp(trunc_toward_zero((N - 1) * (value - data_min) / (data_max - data_min)), 0, N - 1)`
— truncation from `astype(np.int)`, clamping from `np.take(..., mode='clip')`,
not the round-to-nearest of the spec — and returns the element-wise
colormap image of those indices. -/
theorem c4_lookup_is_clamped_truncation [Inhabited α] (data : List (List ℚ))
    (cm : List α) (mn mx : ℚ) (i j : ℕ) (hN : 1 ≤ cm.length) (hlt : mn < mx)
    (hi : i < (data.headD []).length) (hj : j < data.length) :
    ∃ img, apply_bgra_lookup data cm (some mn) (some mx) true = .ok img ∧
      img.length = (data.headD []).length ∧
      (∀ row ∈ img, row.length = data.length) ∧
      cellAt img i j = some (some (cm.getD (clipIdx cm.length
        (truncQ (((cm.length : ℚ) - 1) * (((data.getD j []).getD i 0 - mn) / (mx - mn)))))
        default)) :=
  apply_bgra_lookup_cell data cm mn mx i j (List.ne_nil_of_length_pos hN)
    (sub_ne_zero_of_ne (ne_of_gt hlt)) hi hj

/-- C4 witness: the general cell formula instantiated at the concrete
counterexample input. -/
theorem c4_lookup_is_clamped_truncation_witness :
    (1 ≤ [(10:ℕ), 20, 30].length ∧ (0:ℚ) < 1 ∧
      0 < ([[(9:ℚ)/10]].headD []).length ∧ 0 < [[(9:ℚ)/10]].length) ∧
    (∃ img, apply_bgra_lookup [[(9:ℚ)/10]] [(10:ℕ), 20, 30] (some 0) (some 1) true = .ok img ∧
      img.length = ([[(9:ℚ)/10]].headD []).length ∧
      (∀ row ∈ img, row.length = [[(9:ℚ)/10]].length) ∧
      cellAt img 0 0 = some (some ([(10:ℕ), 20, 30].getD (clipIdx ([(10:ℕ), 20, 30]).length
        (truncQ ((([(10:ℕ), 20, 30].length : ℚ) - 1) *
          ((([[(9:ℚ)/10]].getD 0 []).getD 0 0 - 0) / (1 - 0))))) default))) :=
  ⟨⟨by decide, by with_unfolding_all decide, by decide, by decide⟩,
    c4_lookup_is_clamped_truncation [[(9:ℚ)/10]] [(10:ℕ), 20, 30] 0 1 0 0
      (by decide) (by with_unfolding_all decide) (by decide) (by decide)⟩

/-- C6: in the normalized lookup with `data_max > data_min` and a non-empty
colormap, a cell holding exactly `data_min` resolves to colormap entry 0
and a cell holding exactly `data_max` resolves to entry `N - 1`. -/
theorem c6_boundary_values_map_to_ends [Inhabited α] (data : List (List ℚ))
    (cm : List α) (mn mx : ℚ) (i0 j0 i1 j1 : ℕ)
    (hN : 1 ≤ cm.length) (hlt : mn < mx)
    (hi0 : i0 < (data.headD []).length) (hj0 : j0 < data.length)
    (hv0 : (data.getD j0 []).getD i0 0 = mn)
    (hi1 : i1 < (data.headD []).length) (hj1 : j1 < data.length)
    (hv1 : (data.getD j1 []).getD i1 0 = mx) :
    ∃ img, apply_bgra_lookup data cm (some mn) (some mx) true = .ok img ∧
      cellAt img i0 j0 = some (some (cm.getD 0 default)) ∧
      cellAt img i1 j1 = some (some (cm.getD (cm.length - 1) default)) := by
  have hne : mx - mn ≠ 0 := sub_ne_zero_of_ne (ne_of_gt hlt)
  have hcm : cm ≠ [] := List.ne_nil_of_length_pos hN
  obtain ⟨img, heq, _, _, hc0⟩ := apply_bgra_lookup_cell data cm mn mx i0 j0 hcm hne hi0 hj0
  obtain ⟨img', heq', _, _, hc1⟩ := apply_bgra_lookup_cell data cm mn mx i1 j1 hcm hne hi1 hj1
  rw [heq] at heq'
  injection heq' with heq'
  subst heq'
  refine ⟨img, heq, ?_, ?_⟩
  · rw [hc0, hv0]
    have h0 : ((cm.length : ℚ) - 1) * ((mn - mn) / (mx - mn)) = 0 := by
      rw [sub_self, zero_div, mul_zero]
    rw [h0]
    have ht : truncQ 0 = 0 := truncQ_intCast 0
    rw [show ((0 : ℚ) = ((0 : ℤ) : ℚ)) from by norm_num] at ht ⊢
    rw [ht, clipIdx_zero]
  · rw [hc1, hv1]
    have h1 : ((cm.length : ℚ) - 1) * ((mx - mn) / (mx - mn)) = (((cm.length : ℤ) - 1 : ℤ) : ℚ) := by
      rw [div_self hne, mul_one]
      push_cast
      ring
    rw [h1, truncQ_intCast, clipIdx_last hN]

/-- C6 witness: the boundary property at a concrete two-cell row. -/
theorem c6_boundary_values_map_to_ends_witness :
    (1 ≤ [(10:ℕ), 20, 30].length ∧ (0:ℚ) < 5 ∧
      ([[(0:ℚ), 5]].getD 0 []).getD 0 0 = 0 ∧ ([[(0:ℚ), 5]].getD 0 []).getD 1 0 = 5) ∧
    (∃ img, apply_bgra_lookup [[(0:ℚ), 5]] [(10:ℕ), 20, 30] (some 0) (some 5) true = .ok img ∧
      cellAt img 0 0 = some (some ([(10:ℕ), 20, 30].getD 0 default)) ∧
      cellAt img 1 0 = some (some ([(10:ℕ), 20, 30].getD ([(10:ℕ), 20, 30].length - 1) default))) :=
  ⟨⟨by decide, by with_unfolding_all decide, by with_unfolding_all decide,
      by with_unfolding_all decide⟩,
    c6_boundary_values_map_to_ends [[(0:ℚ), 5]] [(10:ℕ), 20, 30] 0 5 0 0 1 0
      (by decide) (by with_unfolding_all decide) (by decide) (by decide)
      (by with_unfolding_all decide) (by decide) (by decide) (by with_unfolding_all decide)⟩

theorem getD_mem_of_lt {l : List α} {k : ℕ} (hk : k < l.length) (d : α) :
    l.getD k d ∈ l := by
  rw [List.getD_eq_getElem l d hk]
  exact List.getElem_mem hk

/-- Every defined cell `bgraCell` produces is an existing colormap entry:
`mode='clip'` keeps the index inside `[0, len(colormap) - 1]`. -/
theorem bgraCell_some_mem [Inhabited α] {cm : List α} (hcm : cm ≠ []) (i : ℤ) :
    ∃ a ∈ cm, bgraCell cm (some i) = some a := by
  have hN : 0 < cm.length := List.length_pos.mpr hcm
  exact ⟨cm.getD (clipIdx cm.length i) default,
    getD_mem_of_lt (clipIdx_lt hN i) default, rfl⟩

/-- C10: for integer-valued data and a non-empty colormap the lookup never
indexes outside the colormap: with `normalize=False` every value, negative
or beyond `len(colormap)`, is clamped, and with `normalize=True` (bounds
present and distinct) every out-of-range normalized value is clamped, so
the function always returns an image of existing colormap entries. -/
theorem c10_lookup_always_in_colormap [Inhabited α] (dataInt : List (List ℤ))
    (cm : List α) (dmin dmax : Option ℚ) (mn mx : ℚ)
    (hcm : cm ≠ []) (hne : mn ≠ mx) :
    (∃ img, apply_bgra_lookup (dataInt.map (List.map (fun z : ℤ => (z : ℚ)))) cm
        dmin dmax false = .ok img ∧
      ∀ row ∈ img, ∀ c ∈ row, ∃ a ∈ cm, c = some a) ∧
    (∃ img, apply_bgra_lookup (dataInt.map (List.map (fun z : ℤ => (z : ℚ)))) cm
        (some mn) (some mx) true = .ok img ∧
      ∀ row ∈ img, ∀ c ∈ row, ∃ a ∈ cm, c = some a) := by
  constructor
  · refine ⟨(((npT (dataInt.map (List.map (fun z : ℤ => (z : ℚ))))).map (List.map some)).map
      (List.map (Option.map truncQ))).map (List.map (bgraCell cm)), ?_, ?_⟩
    · unfold apply_bgra_lookup npTakeClip
      rw [if_neg (by simp), if_neg (by simp [hcm])]
      rfl
    · intro row hrow c hc
      obtain ⟨r2, hr2, rfl⟩ := List.mem_map.mp hrow
      obtain ⟨v2, hv2, rfl⟩ := List.mem_map.mp hc
      obtain ⟨r1, hr1, rfl⟩ := List.mem_map.mp hr2
      obtain ⟨v1, hv1, rfl⟩ := List.mem_map.mp hv2
      obtain ⟨r0, hr0, rfl⟩ := List.mem_map.mp hr1
      obtain ⟨v0, hv0, rfl⟩ := List.mem_map.mp hv1
      exact bgraCell_some_mem hcm (truncQ v0)
  · have hsub : mx - mn ≠ 0 := sub_ne_zero_of_ne (Ne.symm hne)
    refine ⟨(((npT (dataInt.map (List.map (fun z : ℤ => (z : ℚ))))).map
      (List.map (normValue cm.length mn mx))).map
      (List.map (Option.map truncQ))).map (List.map (bgraCell cm)), ?_, ?_⟩
    · unfold apply_bgra_lookup npTakeClip
      rw [if_neg (by simp), if_neg (by simp [hcm])]
      rfl
    · intro row hrow c hc
      obtain ⟨r2, hr2, rfl⟩ := List.mem_map.mp hrow
      obtain ⟨v2, hv2, rfl⟩ := List.mem_map.mp hc
      obtain ⟨r1, hr1, rfl⟩ := List.mem_map.mp hr2
      obtain ⟨v1, hv1, rfl⟩ := List.mem_map.mp hv2
      obtain ⟨r0, hr0, rfl⟩ := List.mem_map.mp hr1
      obtain ⟨v0, hv0, rfl⟩ := List.mem_map.mp hv1
      rw [show normValue cm.length mn mx v0 =
        some (((cm.length : ℚ) - 1) * ((v0 - mn) / (mx - mn))) from by
          simp [normValue, npDiv, hsub]]
      exact bgraCell_some_mem hcm _
/-- C10 witness: a data matrix holding a negative and an oversized index,
looked up without and with normalization. -/
theorem c10_lookup_always_in_colormap_witness :
    ([(10:ℕ), 20] ≠ [] ∧ (0:ℚ) ≠ 1) ∧
    ((∃ img, apply_bgra_lookup ([[(-5 : ℤ), 7]].map (List.map (fun z : ℤ => (z : ℚ))))
        [(10:ℕ), 20] none none false = .ok img ∧
      ∀ row ∈ img, ∀ c ∈ row, ∃ a ∈ [(10:ℕ), 20], c = some a) ∧
    (∃ img, apply_bgra_lookup ([[(-5 : ℤ), 7]].map (List.map (fun z : ℤ => (z : ℚ))))
        [(10:ℕ), 20] (some 0) (some 1) true = .ok img ∧
      ∀ row ∈ img, ∀ c ∈ row, ∃ a ∈ [(10:ℕ), 20], c = some a)) :=
  ⟨⟨by decide, by with_unfolding_all decide⟩,
    c10_lookup_always_in_colormap [[(-5 : ℤ), 7]] [(10:ℕ), 20] none none 0 1
      (by decide) (by with_unfolding_all decide)⟩

/-- C3 (amended): for `window_size ≥ 1` and `overlap_factor ∈ [0, 1]` the
hop is computed as `window_size - floor(overlap_factor * window_size)` and
is never negative; when it is 0 (overlap factor 1) `stft` fails — but by
raising `ZeroDivisionError` from the `%` on line 87, not the spec's
`InvalidParameterError`: no explicit parameter check exists in the source. -/
theorem c3_hop_formula_and_zero_hop_failure (dftRow : List CQ → List CQ)
    (samples : List CQ) (windowFn : ℕ → List CQ) (w : ℕ) (f : ℚ)
    (hw : 1 ≤ w) (hf0 : 0 ≤ f) (hf1 : f ≤ 1) :
    hopSize w f = (w : ℤ) - ⌊f * (w : ℚ)⌋ ∧ 0 ≤ hopSize w f ∧
      (hopSize w f = 0 → stftE dftRow samples w f windowFn = .error .zeroDivisionError) := by
  have hfw : (0 : ℚ) ≤ f * w := mul_nonneg hf0 (by positivity)
  have ht : truncQ (f * (w : ℚ)) = ⌊f * (w : ℚ)⌋ := by
    unfold truncQ
    rw [if_pos hfw]
  have hform : hopSize w f = (w : ℤ) - ⌊f * (w : ℚ)⌋ := by
    unfold hopSize
    rw [ht]
  refine ⟨hform, ?_, ?_⟩
  · have hle : f * (w : ℚ) ≤ (w : ℚ) :=
      mul_le_of_le_one_left (by positivity) hf1
    have : ⌊f * (w : ℚ)⌋ ≤ (w : ℤ) := by
      calc ⌊f * (w : ℚ)⌋ ≤ ⌊(w : ℚ)⌋ := Int.floor_le_floor hle
        _ = (w : ℤ) := Int.floor_natCast w
    omega
  · intro h0
    unfold stftE
    rw [if_pos h0]

/-- C3 witness: the amended behaviour at `window_size = 4`,
`overlap_factor = 1`. -/
theorem c3_hop_formula_and_zero_hop_failure_witness :
    (1 ≤ 4 ∧ (0 : ℚ) ≤ 1 ∧ (1 : ℚ) ≤ 1) ∧
    (hopSize 4 1 = ((4 : ℕ) : ℤ) - ⌊(1 : ℚ) * ((4 : ℕ) : ℚ)⌋ ∧ 0 ≤ hopSize 4 1 ∧
      (hopSize 4 1 = 0 → stftE dft4 s6 4 1 hann4Fn = .error .zeroDivisionError)) :=
  ⟨⟨by decide, by with_unfolding_all decide, by with_unfolding_all decide⟩,
    c3_hop_formula_and_zero_hop_failure dft4 s6 hann4Fn 4 1 (by decide)
      (by with_unfolding_all decide) (by with_unfolding_all decide)⟩

/-- C7: with at least `window_size` samples and a positive hop, `stft`
produces exactly `floor((len(padded) - window_size) / hop) + 1` frames,
every produced frame has length exactly `window_size`, and every slice
`i*hop : i*hop + window_size` stays inside the padded buffer. -/
theorem c7_frame_count_and_lengths (dftRow : List CQ → List CQ) (samples : List CQ)
    (windowFn : ℕ → List CQ) (w : ℕ) (f : ℚ)
    (hhop : 0 < hopSize w f) (hlen : w ≤ samples.length)
    (hwin : (windowFn w).length = w)
    (hdft : ∀ x, (dftRow x).length = x.length) :
    ∃ frames, stftE dftRow samples w f windowFn = .ok frames ∧
      (frames.length : ℤ) = numFramesZ samples.length w (hopSize w f) ∧
      (∀ fr ∈ frames, fr.length = w) ∧
      (∀ i : ℕ, i < frames.length →
        (i : ℤ) * hopSize w f + w ≤ paddedLen samples.length w (hopSize w f)) := by
  set hop := hopSize w f with hhopdef
  have hne : hop ≠ 0 := ne_of_gt hhop
  have hpc0 : 0 ≤ padCount samples.length w hop := Int.emod_nonneg _ hne
  have hLzdef : paddedLen samples.length w hop = (samples.length : ℤ) + padCount samples.length w hop := rfl
  have hwn : (w : ℤ) ≤ (samples.length : ℤ) := by exact_mod_cast hlen
  have hfd0 : 0 ≤ (paddedLen samples.length w hop - w).fdiv hop :=
    Int.fdiv_nonneg (by omega) (le_of_lt hhop)
  have hNF0 : 0 ≤ numFramesZ samples.length w hop := by
    unfold numFramesZ
    omega
  have hkey : ∀ i : ℕ, (i : ℤ) < numFramesZ samples.length w hop →
      (i : ℤ) * hop + w ≤ paddedLen samples.length w hop := by
    intro i hi
    have hiq : (i : ℤ) ≤ (paddedLen samples.length w hop - w).fdiv hop := by
      unfold numFramesZ at hi
      omega
    have h2 : (i : ℤ) * hop ≤ (paddedLen samples.length w hop - w).fdiv hop * hop :=
      mul_le_mul_of_nonneg_right hiq (le_of_lt hhop)
    have h3 : (paddedLen samples.length w hop - w).fdiv hop * hop ≤ paddedLen samples.length w hop - w := by
      rw [Int.fdiv_eq_ediv _ (le_of_lt hhop)]
      exact Int.ediv_mul_le _ hne
    omega
  have htn : ((hop.toNat : ℤ)) = hop := Int.toNat_of_nonneg (le_of_lt hhop)
  have hptn : ((padCount samples.length w hop).toNat : ℤ) = padCount samples.length w hop := Int.toNat_of_nonneg hpc0
  have hNFtn : ((numFramesZ samples.length w hop).toNat : ℤ) = numFramesZ samples.length w hop :=
    Int.toNat_of_nonneg hNF0
  have hframes_len : (stftFrames samples w hop (windowFn w)).length =
      (numFramesZ samples.length w hop).toNat := by
    simp [stftFrames]
  refine ⟨(stftFrames samples w hop (windowFn w)).map dftRow, ?_, ?_, ?_, ?_⟩
  · simp only [stftE]
    rw [if_neg hne, if_neg (not_lt.mpr (le_of_lt hhop))]
  · rw [List.length_map, hframes_len, hNFtn]
  · intro fr hfr
    obtain ⟨fr0, hfr0, rfl⟩ := List.mem_map.mp hfr
    rw [hdft]
    simp only [stftFrames, List.mem_map] at hfr0
    obtain ⟨i, hi, rfl⟩ := hfr0
    have hilt : i < (numFramesZ samples.length w hop).toNat := List.mem_range.mp hi
    have hiz : (i : ℤ) < numFramesZ samples.length w hop := by omega
    have hslice := hkey i hiz
    rw [List.length_zipWith, List.length_take, List.length_drop, hwin,
      List.length_append, List.length_replicate]
    have hmul : (i : ℤ) * hop = ((i * hop.toNat : ℕ) : ℤ) := by
      push_cast
      rw [htn]
    rw [hLzdef, hmul, ← hptn] at hslice
    omega
  · intro i hilen
    rw [List.length_map, hframes_len] at hilen
    exact hkey i (by omega)

theorem dftWithRoot_length (ω : CQ) (x : List CQ) :
    (dftWithRoot ω x).length = x.length := by
  simp [dftWithRoot]

/-- C7 witness: the frame-count invariant at 6 samples, `window_size = 4`,
`overlap_factor = 0.5` (hop 2, hence 2 frames of length 4). -/
theorem c7_frame_count_and_lengths_witness :
    (0 < hopSize 4 (1/2) ∧ 4 ≤ s6.length ∧ (hann4Fn 4).length = 4 ∧
      (∀ x, (dft4 x).length = x.length)) ∧
    (∃ frames, stftE dft4 s6 4 (1/2) hann4Fn = .ok frames ∧
      (frames.length : ℤ) = numFramesZ s6.length 4 (hopSize 4 (1/2)) ∧
      (∀ fr ∈ frames, fr.length = 4) ∧
      (∀ i : ℕ, i < frames.length →
        (i : ℤ) * hopSize 4 (1/2) + 4 ≤ paddedLen s6.length 4 (hopSize 4 (1/2)))) :=
  ⟨⟨by with_unfolding_all decide, by decide, by decide,
      fun x => dftWithRoot_length ⟨0, -1⟩ x⟩,
    c7_frame_count_and_lengths dft4 s6 hann4Fn 4 (1/2) (by with_unfolding_all decide)
      (by decide) (by decide) (fun x => dftWithRoot_length ⟨0, -1⟩ x)⟩
